import Mathlib

/-!
Verification of the `bytescolor` crate (`src/lib.rs`) against its
natural-language specification.

The crate defines a trait `ByteColor` with eleven operations (nine
parameterless styles plus `rgb` and `color`) and implements it for the
numeric primitives `u8, u16, u32, u64, i8, i16, i32, i64, usize`, for
`&str` and `String`, and for `&[u8]`, `Vec<u8>` and `&[u8; N]`.
Every method builds a `String` of the form
`"\x1b[<code>m" ++ text ++ "\x1b[0m"`.

Rust `String` values are modelled as `List Char` (a Lean `Char` is a
Unicode scalar value, exactly like a Rust `char`); byte sequences are
modelled as `List Nat` with each element a byte value.  The standard
library facilities the crate calls — `String::from_utf8_lossy` and the
`Display` instances of the integer primitives — are modelled below,
faithful to their documented Rust semantics.
-/

/-- The Unicode replacement character U+FFFD, which
`String::from_utf8_lossy` substitutes for invalid byte sequences. -/
def repl : Char := Char.ofNat 0xFFFD

/-- One step of lossy UTF-8 decoding, modelling the chunk structure of
Rust `String::from_utf8_lossy` (std `Utf8Chunks` together with
`run_utf8_validation`).  Given the first byte `b0` and the remaining
bytes `rest`, it returns the character produced (a decoded scalar value
or U+FFFD) and how many bytes of `rest` are consumed in addition to
`b0`.  The extra-bytes count on malformed input mirrors the
`error_len` values of std's UTF-8 validator: an invalid leading byte or
an invalid second byte consumes only `b0`; an invalid third (fourth)
byte of a longer sequence consumes the two (three) bytes that had
validated; a sequence truncated by the end of input consumes the whole
remainder.  Each maximal invalid subpart yields exactly one U+FFFD. -/
def utf8Step (b0 : Nat) (rest : List Nat) : Char × Nat :=
  if b0 < 0x80 then
    (Char.ofNat b0, 0)
  else if b0 < 0xC2 then
    (repl, 0)
  else if b0 ≤ 0xDF then
    match rest with
    | [] => (repl, 0)
    | b1 :: _ =>
      if 0x80 ≤ b1 ∧ b1 ≤ 0xBF then
        (Char.ofNat ((b0 - 0xC0) * 64 + (b1 - 0x80)), 1)
      else
        (repl, 0)
  else if b0 ≤ 0xEF then
    match rest with
    | [] => (repl, 0)
    | b1 :: rest2 =>
      if (b0 = 0xE0 ∧ 0xA0 ≤ b1 ∧ b1 ≤ 0xBF) ∨
         (0xE1 ≤ b0 ∧ b0 ≤ 0xEC ∧ 0x80 ≤ b1 ∧ b1 ≤ 0xBF) ∨
         (b0 = 0xED ∧ 0x80 ≤ b1 ∧ b1 ≤ 0x9F) ∨
         (0xEE ≤ b0 ∧ b0 ≤ 0xEF ∧ 0x80 ≤ b1 ∧ b1 ≤ 0xBF) then
        match rest2 with
        | [] => (repl, 1)
        | b2 :: _ =>
          if 0x80 ≤ b2 ∧ b2 ≤ 0xBF then
            (Char.ofNat ((b0 - 0xE0) * 4096 + (b1 - 0x80) * 64 + (b2 - 0x80)), 2)
          else
            (repl, 1)
      else
        (repl, 0)
  else if b0 ≤ 0xF4 then
    match rest with
    | [] => (repl, 0)
    | b1 :: rest2 =>
      if (b0 = 0xF0 ∧ 0x90 ≤ b1 ∧ b1 ≤ 0xBF) ∨
         (0xF1 ≤ b0 ∧ b0 ≤ 0xF3 ∧ 0x80 ≤ b1 ∧ b1 ≤ 0xBF) ∨
         (b0 = 0xF4 ∧ 0x80 ≤ b1 ∧ b1 ≤ 0x8F) then
        match rest2 with
        | [] => (repl, 1)
        | b2 :: rest3 =>
          if 0x80 ≤ b2 ∧ b2 ≤ 0xBF then
            match rest3 with
            | [] => (repl, 2)
            | b3 :: _ =>
              if 0x80 ≤ b3 ∧ b3 ≤ 0xBF then
                (Char.ofNat ((b0 - 0xF0) * 262144 + (b1 - 0x80) * 4096 +
                    (b2 - 0x80) * 64 + (b3 - 0x80)), 3)
              else
                (repl, 2)
          else
            (repl, 1)
      else
        (repl, 0)
  else
    (repl, 0)

/-- Fuelled driver of the lossy decoder; the fuel is only a structural
termination device, one unit per produced character.  Since every step
consumes at least one input byte, any fuel at least the length of the
input yields the same, fuel-independent result
(`utf8DecodeGo_congr`). -/
def utf8DecodeGo : Nat → List Nat → List Char
  | _, [] => []
  | 0, _ :: _ => []
  | fuel + 1, b0 :: rest =>
    (utf8Step b0 rest).1 :: utf8DecodeGo fuel (rest.drop (utf8Step b0 rest).2)

/-- Model of Rust `String::from_utf8_lossy`: decode a byte sequence as
UTF-8, substituting U+FFFD for each maximal invalid subpart.  Total on
all inputs. -/
def utf8DecodeLossy (l : List Nat) : List Char := utf8DecodeGo l.length l

/-- The UTF-8 encoding of one Unicode scalar value, as in Rust
`char::encode_utf8` / the byte representation of a `str`. -/
def utf8EncodeChar (c : Char) : List Nat :=
  if c.toNat < 0x80 then
    [c.toNat]
  else if c.toNat < 0x800 then
    [0xC0 + c.toNat / 64, 0x80 + c.toNat % 64]
  else if c.toNat < 0x10000 then
    [0xE0 + c.toNat / 4096, 0x80 + c.toNat / 64 % 64, 0x80 + c.toNat % 64]
  else
    [0xF0 + c.toNat / 262144, 0x80 + c.toNat / 4096 % 64,
     0x80 + c.toNat / 64 % 64, 0x80 + c.toNat % 64]

/-- The UTF-8 encoding of a string: the bytes a Rust `str` with these
characters consists of. -/
def utf8Encode : List Char → List Nat
  | [] => []
  | c :: cs => utf8EncodeChar c ++ utf8Encode cs

/-- Sanity check (spec scenario 3 content): an invalid leading byte
followed by valid ASCII decodes to U+FFFD followed by the ASCII. -/
theorem utf8DecodeLossy_ff_hi : utf8DecodeLossy [0xFF, 0x48, 0x49] = [repl, 'H', 'I'] := by
  decide

/-- Sanity check: the three-byte encoding of the euro sign decodes. -/
theorem utf8DecodeLossy_euro : utf8DecodeLossy [0xE2, 0x82, 0xAC] = ['€'] := by
  decide

/-- Sanity check: a CESU-8 surrogate encoding yields three replacement
characters, one per maximal invalid subpart. -/
theorem utf8DecodeLossy_surrogate :
    utf8DecodeLossy [0xED, 0xA0, 0x80] = [repl, repl, repl] := by
  decide

/-- Sanity check: a sequence truncated by end of input yields a single
replacement character. -/
theorem utf8DecodeLossy_truncated : utf8DecodeLossy [0xE0, 0xA0] = [repl] := by
  decide

/-- Sanity check: empty input decodes to the empty string. -/
theorem utf8DecodeLossy_nil : utf8DecodeLossy [] = [] := by
  decide

/-- Fuelled decimal-digit accumulator, mirroring the digit loop of the
`Display` implementation of Rust's integer primitives: peel the least
significant digit until the value is a single digit, accumulating
digits most-significant-first.  The fuel is only a structural
termination device; `n + 1` units always suffice. -/
def natDecRec : Nat → Nat → List Char → List Char
  | 0, _, acc => acc
  | fuel + 1, n, acc =>
    if n < 10 then
      Char.ofNat (48 + n) :: acc
    else
      natDecRec fuel (n / 10) (Char.ofNat (48 + n % 10) :: acc)

/-- Model of the `Display` output of Rust's unsigned integer
primitives: canonical base-10 digits, no sign, no leading zeros. -/
def natDecimal (n : Nat) : List Char := natDecRec (n + 1) n []

/-- Model of the `Display` output of Rust's signed integer primitives:
a leading minus sign for negative values, then the canonical base-10
digits of the absolute value. -/
def intDecimal (v : Int) : List Char :=
  if v < 0 then '-' :: natDecimal v.natAbs else natDecimal v.toNat

/-- Sanity check: 42 renders as the two digits 4 and 2. -/
theorem natDecimal_42 : natDecimal 42 = ['4', '2'] := by decide

/-- Sanity check: 0 renders as the single digit 0. -/
theorem natDecimal_0 : natDecimal 0 = ['0'] := by decide

/-- Sanity check: a negative value renders with a leading minus. -/
theorem intDecimal_neg : intDecimal (-128) = ['-', '1', '2', '8'] := by decide

/-- The nine parameterless style operations of the `ByteColor` trait:
`red`, `green`, `yellow`, `magenta`, `cyan`, `blue`, `bold`,
`underline`, `blink`. -/
inductive Style
  | red
  | green
  | yellow
  | magenta
  | cyan
  | blue
  | bold
  | underline
  | blink
deriving DecidableEq, Repr

namespace PrimImpl

/-- The nine style methods generated by `impl_colorize_for_primitive`
for each of `u8, u16, u32, u64, i8, i16, i32, i64, usize`
(src/lib.rs:570-623).  The macro stamps one identical body per type;
the bodies differ only in the `Display` instance invoked on `self`,
which for every one of these types is the canonical decimal rendering
(`intDecimal`; for the unsigned types the value is nonnegative and the
sign branch is never taken).  Each branch below is the translation of
one `format!` template. -/
def apply (st : Style) (v : Int) : List Char :=
  match st with
  | .red => ['\x1b', '[', '3', '1', 'm'] ++ intDecimal v ++ ['\x1b', '[', '0', 'm']
  | .green => ['\x1b', '[', '3', '2', 'm'] ++ intDecimal v ++ ['\x1b', '[', '0', 'm']
  | .yellow => ['\x1b', '[', '3', '3', 'm'] ++ intDecimal v ++ ['\x1b', '[', '0', 'm']
  | .magenta => ['\x1b', '[', '3', '5', 'm'] ++ intDecimal v ++ ['\x1b', '[', '0', 'm']
  | .cyan => ['\x1b', '[', '3', '6', 'm'] ++ intDecimal v ++ ['\x1b', '[', '0', 'm']
  | .blue => ['\x1b', '[', '3', '4', 'm'] ++ intDecimal v ++ ['\x1b', '[', '0', 'm']
  | .bold => ['\x1b', '[', '1', 'm'] ++ intDecimal v ++ ['\x1b', '[', '0', 'm']
  | .underline => ['\x1b', '[', '4', 'm'] ++ intDecimal v ++ ['\x1b', '[', '0', 'm']
  | .blink => ['\x1b', '[', '5', 'm'] ++ intDecimal v ++ ['\x1b', '[', '0', 'm']

/-- `fn rgb(&self, color: (u8, u8, u8))` of the primitive macro
(src/lib.rs:610-612): `format!("\x1b[38;2;{};{};{}m{}\x1b[0m", ...)`. -/
def rgb (v : Int) (r g b : Nat) : List Char :=
  ['\x1b', '[', '3', '8', ';', '2', ';'] ++ natDecimal r ++ [';'] ++
    natDecimal g ++ [';'] ++ natDecimal b ++ ['m'] ++ intDecimal v ++
    ['\x1b', '[', '0', 'm']

/-- `fn color(&self, color_code: u8)` of the primitive macro
(src/lib.rs:614-616): `format!("\x1b[38;5;{}m{}\x1b[0m", ...)`. -/
def color (v : Int) (code : Nat) : List Char :=
  ['\x1b', '[', '3', '8', ';', '5', ';'] ++ natDecimal code ++ ['m'] ++
    intDecimal v ++ ['\x1b', '[', '0', 'm']

end PrimImpl

namespace StrImpl

/-- The nine style methods of `impl ByteColor for &str`
(src/lib.rs:626-661): each is `format!("\x1b[<code>m{}\x1b[0m", self)`
and `Display` of a `&str` is the text verbatim. -/
def apply (st : Style) (s : List Char) : List Char :=
  match st with
  | .red => ['\x1b', '[', '3', '1', 'm'] ++ s ++ ['\x1b', '[', '0', 'm']
  | .green => ['\x1b', '[', '3', '2', 'm'] ++ s ++ ['\x1b', '[', '0', 'm']
  | .yellow => ['\x1b', '[', '3', '3', 'm'] ++ s ++ ['\x1b', '[', '0', 'm']
  | .magenta => ['\x1b', '[', '3', '5', 'm'] ++ s ++ ['\x1b', '[', '0', 'm']
  | .cyan => ['\x1b', '[', '3', '6', 'm'] ++ s ++ ['\x1b', '[', '0', 'm']
  | .blue => ['\x1b', '[', '3', '4', 'm'] ++ s ++ ['\x1b', '[', '0', 'm']
  | .bold => ['\x1b', '[', '1', 'm'] ++ s ++ ['\x1b', '[', '0', 'm']
  | .underline => ['\x1b', '[', '4', 'm'] ++ s ++ ['\x1b', '[', '0', 'm']
  | .blink => ['\x1b', '[', '5', 'm'] ++ s ++ ['\x1b', '[', '0', 'm']

/-- `<&str as ByteColor>::rgb` (src/lib.rs:663-665). -/
def rgb (s : List Char) (r g b : Nat) : List Char :=
  ['\x1b', '[', '3', '8', ';', '2', ';'] ++ natDecimal r ++ [';'] ++
    natDecimal g ++ [';'] ++ natDecimal b ++ ['m'] ++ s ++
    ['\x1b', '[', '0', 'm']

/-- `<&str as ByteColor>::color` (src/lib.rs:667-669). -/
def color (s : List Char) (code : Nat) : List Char :=
  ['\x1b', '[', '3', '8', ';', '5', ';'] ++ natDecimal code ++ ['m'] ++
    s ++ ['\x1b', '[', '0', 'm']

end StrImpl

namespace StringImpl

/-- The nine style methods of `impl ByteColor for String`
(src/lib.rs:673-708), textually identical to the `&str` bodies. -/
def apply (st : Style) (s : List Char) : List Char :=
  match st with
  | .red => ['\x1b', '[', '3', '1', 'm'] ++ s ++ ['\x1b', '[', '0', 'm']
  | .green => ['\x1b', '[', '3', '2', 'm'] ++ s ++ ['\x1b', '[', '0', 'm']
  | .yellow => ['\x1b', '[', '3', '3', 'm'] ++ s ++ ['\x1b', '[', '0', 'm']
  | .magenta => ['\x1b', '[', '3', '5', 'm'] ++ s ++ ['\x1b', '[', '0', 'm']
  | .cyan => ['\x1b', '[', '3', '6', 'm'] ++ s ++ ['\x1b', '[', '0', 'm']
  | .blue => ['\x1b', '[', '3', '4', 'm'] ++ s ++ ['\x1b', '[', '0', 'm']
  | .bold => ['\x1b', '[', '1', 'm'] ++ s ++ ['\x1b', '[', '0', 'm']
  | .underline => ['\x1b', '[', '4', 'm'] ++ s ++ ['\x1b', '[', '0', 'm']
  | .blink => ['\x1b', '[', '5', 'm'] ++ s ++ ['\x1b', '[', '0', 'm']

/-- `<String as ByteColor>::rgb` (src/lib.rs:710-712). -/
def rgb (s : List Char) (r g b : Nat) : List Char :=
  ['\x1b', '[', '3', '8', ';', '2', ';'] ++ natDecimal r ++ [';'] ++
    natDecimal g ++ [';'] ++ natDecimal b ++ ['m'] ++ s ++
    ['\x1b', '[', '0', 'm']

/-- `<String as ByteColor>::color` (src/lib.rs:714-716). -/
def color (s : List Char) (code : Nat) : List Char :=
  ['\x1b', '[', '3', '8', ';', '5', ';'] ++ natDecimal code ++ ['m'] ++
    s ++ ['\x1b', '[', '0', 'm']

end StringImpl

namespace ByteSliceImpl

/-- The nine style methods of `impl ByteColor for &[u8]`
(src/lib.rs:720-755): each is
`format!("\x1b[<code>m{}\x1b[0m", String::from_utf8_lossy(self))`. -/
def apply (st : Style) (b : List Nat) : List Char :=
  match st with
  | .red => ['\x1b', '[', '3', '1', 'm'] ++ utf8DecodeLossy b ++ ['\x1b', '[', '0', 'm']
  | .green => ['\x1b', '[', '3', '2', 'm'] ++ utf8DecodeLossy b ++ ['\x1b', '[', '0', 'm']
  | .yellow => ['\x1b', '[', '3', '3', 'm'] ++ utf8DecodeLossy b ++ ['\x1b', '[', '0', 'm']
  | .magenta => ['\x1b', '[', '3', '5', 'm'] ++ utf8DecodeLossy b ++ ['\x1b', '[', '0', 'm']
  | .cyan => ['\x1b', '[', '3', '6', 'm'] ++ utf8DecodeLossy b ++ ['\x1b', '[', '0', 'm']
  | .blue => ['\x1b', '[', '3', '4', 'm'] ++ utf8DecodeLossy b ++ ['\x1b', '[', '0', 'm']
  | .bold => ['\x1b', '[', '1', 'm'] ++ utf8DecodeLossy b ++ ['\x1b', '[', '0', 'm']
  | .underline => ['\x1b', '[', '4', 'm'] ++ utf8DecodeLossy b ++ ['\x1b', '[', '0', 'm']
  | .blink => ['\x1b', '[', '5', 'm'] ++ utf8DecodeLossy b ++ ['\x1b', '[', '0', 'm']

/-- `<&[u8] as ByteColor>::rgb` (src/lib.rs:757-765). -/
def rgb (b : List Nat) (r g bl : Nat) : List Char :=
  ['\x1b', '[', '3', '8', ';', '2', ';'] ++ natDecimal r ++ [';'] ++
    natDecimal g ++ [';'] ++ natDecimal bl ++ ['m'] ++ utf8DecodeLossy b ++
    ['\x1b', '[', '0', 'm']

/-- `<&[u8] as ByteColor>::color` (src/lib.rs:767-773). -/
def color (b : List Nat) (code : Nat) : List Char :=
  ['\x1b', '[', '3', '8', ';', '5', ';'] ++ natDecimal code ++ ['m'] ++
    utf8DecodeLossy b ++ ['\x1b', '[', '0', 'm']

end ByteSliceImpl

namespace ByteVecImpl

/-- The nine style methods of `impl ByteColor for Vec<u8>`
(src/lib.rs:777-812), textually identical to the `&[u8]` bodies
(`String::from_utf8_lossy(&self)` on the vector's bytes). -/
def apply (st : Style) (b : List Nat) : List Char :=
  match st with
  | .red => ['\x1b', '[', '3', '1', 'm'] ++ utf8DecodeLossy b ++ ['\x1b', '[', '0', 'm']
  | .green => ['\x1b', '[', '3', '2', 'm'] ++ utf8DecodeLossy b ++ ['\x1b', '[', '0', 'm']
  | .yellow => ['\x1b', '[', '3', '3', 'm'] ++ utf8DecodeLossy b ++ ['\x1b', '[', '0', 'm']
  | .magenta => ['\x1b', '[', '3', '5', 'm'] ++ utf8DecodeLossy b ++ ['\x1b', '[', '0', 'm']
  | .cyan => ['\x1b', '[', '3', '6', 'm'] ++ utf8DecodeLossy b ++ ['\x1b', '[', '0', 'm']
  | .blue => ['\x1b', '[', '3', '4', 'm'] ++ utf8DecodeLossy b ++ ['\x1b', '[', '0', 'm']
  | .bold => ['\x1b', '[', '1', 'm'] ++ utf8DecodeLossy b ++ ['\x1b', '[', '0', 'm']
  | .underline => ['\x1b', '[', '4', 'm'] ++ utf8DecodeLossy b ++ ['\x1b', '[', '0', 'm']
  | .blink => ['\x1b', '[', '5', 'm'] ++ utf8DecodeLossy b ++ ['\x1b', '[', '0', 'm']

/-- `<Vec<u8> as ByteColor>::rgb` (src/lib.rs:814-822). -/
def rgb (b : List Nat) (r g bl : Nat) : List Char :=
  ['\x1b', '[', '3', '8', ';', '2', ';'] ++ natDecimal r ++ [';'] ++
    natDecimal g ++ [';'] ++ natDecimal bl ++ ['m'] ++ utf8DecodeLossy b ++
    ['\x1b', '[', '0', 'm']

/-- `<Vec<u8> as ByteColor>::color` (src/lib.rs:824-830). -/
def color (b : List Nat) (code : Nat) : List Char :=
  ['\x1b', '[', '3', '8', ';', '5', ';'] ++ natDecimal code ++ ['m'] ++
    utf8DecodeLossy b ++ ['\x1b', '[', '0', 'm']

end ByteVecImpl

namespace ByteArrImpl

/-- The nine style methods of `impl<const N: usize> ByteColor for
&[u8; N]` (src/lib.rs:834-869): each delegates to the `&[u8]`
implementation via `self.as_ref()`. -/
def apply (st : Style) (b : List Nat) : List Char := ByteSliceImpl.apply st b

/-- `<&[u8; N] as ByteColor>::rgb` (src/lib.rs:871-873), delegating to
the `&[u8]` implementation. -/
def rgb (b : List Nat) (r g bl : Nat) : List Char := ByteSliceImpl.rgb b r g bl

/-- `<&[u8; N] as ByteColor>::color` (src/lib.rs:875-877), delegating
to the `&[u8]` implementation. -/
def color (b : List Nat) (code : Nat) : List Char := ByteSliceImpl.color b code

end ByteArrImpl

/-- Spec side: the fixed ANSI code of each parameterless style, from
the spec's operation table (red=31, green=32, yellow=33, magenta=35,
cyan=36, blue=34, bold=1, underline=4, blink=5). -/
def Style.code : Style → List Char
  | .red => ['3', '1']
  | .green => ['3', '2']
  | .yellow => ['3', '3']
  | .magenta => ['3', '5']
  | .cyan => ['3', '6']
  | .blue => ['3', '4']
  | .bold => ['1']
  | .underline => ['4']
  | .blink => ['5']

/-- Spec side: the escape sequence `ESC[` + code + `m` that every
styled output begins with. -/
def escapeOf (code : List Char) : List Char := ['\x1b', '['] ++ code ++ ['m']

/-- Spec side: the reset sequence `ESC[0m` that every styled output
ends with. -/
def resetSeq : List Char := ['\x1b', '[', '0', 'm']

/-- Spec side: the code `38;2;r;g;b` of a 24-bit true-color escape,
with the components in decimal in that order. -/
def rgbCode (r g b : Nat) : List Char :=
  ['3', '8', ';', '2', ';'] ++ natDecimal r ++ [';'] ++ natDecimal g ++
    [';'] ++ natDecimal b

/-- Spec side: the code `38;5;code` of a 256-color palette escape. -/
def paletteCode (code : Nat) : List Char :=
  ['3', '8', ';', '5', ';'] ++ natDecimal code

/-- The nine numeric types the crate implements `ByteColor` for:
8/16/32/64-bit unsigned and signed integers and the pointer-sized
unsigned integer (`usize`, modelled for a 64-bit target). -/
inductive NumTy
  | u8
  | u16
  | u32
  | u64
  | usize
  | i8
  | i16
  | i32
  | i64
deriving DecidableEq, Repr

/-- The value range of each supported numeric type. -/
def NumTy.inRange : NumTy → Int → Bool
  | .u8, v => 0 ≤ v ∧ v < 256
  | .u16, v => 0 ≤ v ∧ v < 65536
  | .u32, v => 0 ≤ v ∧ v < 4294967296
  | .u64, v => 0 ≤ v ∧ v < 18446744073709551616
  | .usize, v => 0 ≤ v ∧ v < 18446744073709551616
  | .i8, v => -128 ≤ v ∧ v < 128
  | .i16, v => -32768 ≤ v ∧ v < 32768
  | .i32, v => -2147483648 ≤ v ∧ v < 2147483648
  | .i64, v => -9223372036854775808 ≤ v ∧ v < 9223372036854775808

/-- The base-10 value of a list of digit characters,
most-significant-first. -/
def decDigitsVal (l : List Char) : Nat :=
  l.foldl (fun a c => 10 * a + (c.toNat - 48)) 0

/-- Spec side: `l` is the canonical base-10 representation of the
natural number `n` — nonempty, digit characters only, evaluating to
`n`, and without leading zeros. -/
def NatDecRepr (l : List Char) (n : Nat) : Prop :=
  l ≠ [] ∧ (∀ c ∈ l, 48 ≤ c.toNat ∧ c.toNat ≤ 57) ∧ decDigitsVal l = n ∧
    (l.head? = some '0' → l = ['0'])

/-- Spec side: `l` is the canonical base-10 representation of the
integer `v` — for nonnegative `v` the canonical digits, for negative
`v` a minus sign followed by the canonical digits of `|v|`. -/
def DecimalRepr (l : List Char) (v : Int) : Prop :=
  (0 ≤ v ∧ NatDecRepr l v.toNat) ∨
    (v < 0 ∧ ∃ ds, l = '-' :: ds ∧ NatDecRepr ds v.natAbs)

/-- One of the eleven operations of the `ByteColor` trait: a
parameterless style, `rgb` with a component triple, or `color` with a
palette code. -/
inductive Operation
  | style (st : Style)
  | rgb (r g b : Nat)
  | color (code : Nat)
deriving DecidableEq, Repr

/-- Spec side: the ANSI code of an operation, as in the spec's
operation table. -/
def Operation.codeOf : Operation → List Char
  | .style st => st.code
  | .rgb r g b => rgbCode r g b
  | .color c => paletteCode c

/-- A value of one of the types the crate implements `ByteColor` for,
tagged by implementation: a numeric primitive, a string slice, an
owned string, a byte slice, an owned byte vector, or a reference to a
fixed-size byte array. -/
inductive Input
  | num (v : Int)
  | strSlice (s : List Char)
  | ownedStr (s : List Char)
  | byteSlice (b : List Nat)
  | byteVec (b : List Nat)
  | byteArr (b : List Nat)
deriving DecidableEq, Repr

/-- Spec side: the textual representation of an input per its input
category — decimal for numerics, the text verbatim for text inputs,
the lossy UTF-8 decoding for byte-sequence inputs. -/
def Input.textOf : Input → List Char
  | .num v => intDecimal v
  | .strSlice s => s
  | .ownedStr s => s
  | .byteSlice b => utf8DecodeLossy b
  | .byteVec b => utf8DecodeLossy b
  | .byteArr b => utf8DecodeLossy b

/-- Dispatch an operation to the method of the implementation the
input belongs to; this is the call `v.red()`, `v.rgb((r,g,b))`, … as
resolved by the trait. -/
def dispatch : Operation → Input → List Char
  | .style st, .num v => PrimImpl.apply st v
  | .style st, .strSlice s => StrImpl.apply st s
  | .style st, .ownedStr s => StringImpl.apply st s
  | .style st, .byteSlice b => ByteSliceImpl.apply st b
  | .style st, .byteVec b => ByteVecImpl.apply st b
  | .style st, .byteArr b => ByteArrImpl.apply st b
  | .rgb r g bl, .num v => PrimImpl.rgb v r g bl
  | .rgb r g bl, .strSlice s => StrImpl.rgb s r g bl
  | .rgb r g bl, .ownedStr s => StringImpl.rgb s r g bl
  | .rgb r g bl, .byteSlice b => ByteSliceImpl.rgb b r g bl
  | .rgb r g bl, .byteVec b => ByteVecImpl.rgb b r g bl
  | .rgb r g bl, .byteArr b => ByteArrImpl.rgb b r g bl
  | .color c, .num v => PrimImpl.color v c
  | .color c, .strSlice s => StrImpl.color s c
  | .color c, .ownedStr s => StringImpl.color s c
  | .color c, .byteSlice b => ByteSliceImpl.color b c
  | .color c, .byteVec b => ByteVecImpl.color b c
  | .color c, .byteArr b => ByteArrImpl.color b c

/-- A call site of a `ByteColor` method: the method takes `&self`, so
the call returns the new string while the caller keeps its input
value; the pair is (returned string, the caller's value after the
call). -/
def dispatchCall (op : Operation) (inp : Input) : List Char × Input :=
  (dispatch op inp, inp)

/-- `utf8Step` on an ASCII byte. -/
theorem utf8Step_ascii (b0 : Nat) (rest : List Nat) (h : b0 < 0x80) :
    utf8Step b0 rest = (Char.ofNat b0, 0) := by
  unfold utf8Step
  rw [if_pos h]

/-- `utf8Step` on a well-formed two-byte sequence. -/
theorem utf8Step_two (b0 b1 : Nat) (rest : List Nat)
    (h0 : 0xC2 ≤ b0) (h1 : b0 ≤ 0xDF) (hc : 0x80 ≤ b1 ∧ b1 ≤ 0xBF) :
    utf8Step b0 (b1 :: rest) = (Char.ofNat ((b0 - 0xC0) * 64 + (b1 - 0x80)), 1) := by
  unfold utf8Step
  rw [if_neg (by omega), if_neg (by omega), if_pos h1]
  simp only [if_pos hc]

/-- `utf8Step` on a well-formed three-byte sequence. -/
theorem utf8Step_three (b0 b1 b2 : Nat) (rest : List Nat)
    (h0 : 0xE0 ≤ b0) (h1 : b0 ≤ 0xEF)
    (hs : (b0 = 0xE0 ∧ 0xA0 ≤ b1 ∧ b1 ≤ 0xBF) ∨
          (0xE1 ≤ b0 ∧ b0 ≤ 0xEC ∧ 0x80 ≤ b1 ∧ b1 ≤ 0xBF) ∨
          (b0 = 0xED ∧ 0x80 ≤ b1 ∧ b1 ≤ 0x9F) ∨
          (0xEE ≤ b0 ∧ b0 ≤ 0xEF ∧ 0x80 ≤ b1 ∧ b1 ≤ 0xBF))
    (hc : 0x80 ≤ b2 ∧ b2 ≤ 0xBF) :
    utf8Step b0 (b1 :: b2 :: rest) =
      (Char.ofNat ((b0 - 0xE0) * 4096 + (b1 - 0x80) * 64 + (b2 - 0x80)), 2) := by
  unfold utf8Step
  rw [if_neg (by omega), if_neg (by omega), if_neg (by omega), if_pos h1]
  simp only [if_pos hs, if_pos hc]

/-- `utf8Step` on a well-formed four-byte sequence. -/
theorem utf8Step_four (b0 b1 b2 b3 : Nat) (rest : List Nat)
    (h0 : 0xF0 ≤ b0) (h1 : b0 ≤ 0xF4)
    (hs : (b0 = 0xF0 ∧ 0x90 ≤ b1 ∧ b1 ≤ 0xBF) ∨
          (0xF1 ≤ b0 ∧ b0 ≤ 0xF3 ∧ 0x80 ≤ b1 ∧ b1 ≤ 0xBF) ∨
          (b0 = 0xF4 ∧ 0x80 ≤ b1 ∧ b1 ≤ 0x8F))
    (hc2 : 0x80 ≤ b2 ∧ b2 ≤ 0xBF) (hc3 : 0x80 ≤ b3 ∧ b3 ≤ 0xBF) :
    utf8Step b0 (b1 :: b2 :: b3 :: rest) =
      (Char.ofNat ((b0 - 0xF0) * 262144 + (b1 - 0x80) * 4096 +
        (b2 - 0x80) * 64 + (b3 - 0x80)), 3) := by
  unfold utf8Step
  rw [if_neg (by omega), if_neg (by omega), if_neg (by omega), if_neg (by omega),
    if_pos h1]
  simp only [if_pos hs, if_pos hc2, if_pos hc3]

/-- The fuel of `utf8DecodeGo` does not affect the result as long as
it is at least the length of the input. -/
theorem utf8DecodeGo_congr :
    ∀ f1 f2 l, l.length ≤ f1 → l.length ≤ f2 →
      utf8DecodeGo f1 l = utf8DecodeGo f2 l := by
  intro f1
  induction f1 with
  | zero =>
    intro f2 l h1 _
    cases l with
    | nil => cases f2 <;> rfl
    | cons b0 rest => simp at h1
  | succ f ih =>
    intro f2 l h1 h2
    cases l with
    | nil => cases f2 <;> rfl
    | cons b0 rest =>
      cases f2 with
      | zero => simp at h2
      | succ f2' =>
        show (utf8Step b0 rest).1 :: utf8DecodeGo f (rest.drop (utf8Step b0 rest).2) =
          (utf8Step b0 rest).1 :: utf8DecodeGo f2' (rest.drop (utf8Step b0 rest).2)
        congr 1
        apply ih
        · have := List.length_drop (utf8Step b0 rest).2 rest
          simp at h1
          omega
        · have := List.length_drop (utf8Step b0 rest).2 rest
          simp at h2
          omega

/-- Unfolding equation of the lossy decoder: one step consumes the
bytes `utf8Step` says and produces its character. -/
theorem utf8DecodeLossy_cons (b0 : Nat) (rest : List Nat) :
    utf8DecodeLossy (b0 :: rest) =
      (utf8Step b0 rest).1 :: utf8DecodeLossy (rest.drop (utf8Step b0 rest).2) := by
  show utf8DecodeGo (rest.length + 1) (b0 :: rest) = _
  show (utf8Step b0 rest).1 :: utf8DecodeGo rest.length (rest.drop (utf8Step b0 rest).2) = _
  congr 1
  apply utf8DecodeGo_congr
  · have := List.length_drop (utf8Step b0 rest).2 rest
    omega
  · exact Nat.le_refl _

set_option maxRecDepth 8192 in
/-- Lossy decoding consumes the encoding of one character from the
front of the input and produces exactly that character: the decoder
inverts the encoder character by character. -/
theorem utf8DecodeLossy_encodeChar (c : Char) (rest : List Nat) :
    utf8DecodeLossy (utf8EncodeChar c ++ rest) = c :: utf8DecodeLossy rest := by
  have hval : c.toNat < 55296 ∨ (57343 < c.toNat ∧ c.toNat < 1114112) := c.valid
  by_cases h1 : c.toNat < 0x80
  · have he : utf8EncodeChar c = [c.toNat] := by rw [utf8EncodeChar, if_pos h1]
    rw [he]
    simp only [List.cons_append, List.nil_append]
    rw [utf8DecodeLossy_cons, utf8Step_ascii _ _ h1]
    show Char.ofNat c.toNat :: utf8DecodeLossy rest = c :: utf8DecodeLossy rest
    rw [Char.ofNat_toNat]
  · by_cases h2 : c.toNat < 0x800
    · have he : utf8EncodeChar c = [0xC0 + c.toNat / 64, 0x80 + c.toNat % 64] := by
        rw [utf8EncodeChar, if_neg h1, if_pos h2]
      rw [he]
      simp only [List.cons_append, List.nil_append]
      rw [utf8DecodeLossy_cons,
        utf8Step_two _ _ _ (by omega) (by omega) (by omega)]
      show Char.ofNat ((0xC0 + c.toNat / 64 - 0xC0) * 64 + (0x80 + c.toNat % 64 - 0x80)) ::
          utf8DecodeLossy rest = c :: utf8DecodeLossy rest
      have hn : (0xC0 + c.toNat / 64 - 0xC0) * 64 + (0x80 + c.toNat % 64 - 0x80) =
          c.toNat := by omega
      rw [hn, Char.ofNat_toNat]
    · by_cases h3 : c.toNat < 0x10000
      · have he : utf8EncodeChar c =
            [0xE0 + c.toNat / 4096, 0x80 + c.toNat / 64 % 64, 0x80 + c.toNat % 64] := by
          rw [utf8EncodeChar, if_neg h1, if_neg h2, if_pos h3]
        rw [he]
        simp only [List.cons_append, List.nil_append]
        rw [utf8DecodeLossy_cons,
          utf8Step_three _ _ _ _ (by omega) (by omega) (by omega) (by omega)]
        show Char.ofNat ((0xE0 + c.toNat / 4096 - 0xE0) * 4096 +
            (0x80 + c.toNat / 64 % 64 - 0x80) * 64 + (0x80 + c.toNat % 64 - 0x80)) ::
            utf8DecodeLossy rest = c :: utf8DecodeLossy rest
        have hn : (0xE0 + c.toNat / 4096 - 0xE0) * 4096 +
            (0x80 + c.toNat / 64 % 64 - 0x80) * 64 + (0x80 + c.toNat % 64 - 0x80) =
            c.toNat := by omega
        rw [hn, Char.ofNat_toNat]
      · have he : utf8EncodeChar c =
            [0xF0 + c.toNat / 262144, 0x80 + c.toNat / 4096 % 64,
             0x80 + c.toNat / 64 % 64, 0x80 + c.toNat % 64] := by
          rw [utf8EncodeChar, if_neg h1, if_neg h2, if_neg h3]
        rw [he]
        simp only [List.cons_append, List.nil_append]
        rw [utf8DecodeLossy_cons,
          utf8Step_four _ _ _ _ _ (by omega) (by omega) (by omega) (by omega) (by omega)]
        show Char.ofNat ((0xF0 + c.toNat / 262144 - 0xF0) * 262144 +
            (0x80 + c.toNat / 4096 % 64 - 0x80) * 4096 +
            (0x80 + c.toNat / 64 % 64 - 0x80) * 64 + (0x80 + c.toNat % 64 - 0x80)) ::
            utf8DecodeLossy rest = c :: utf8DecodeLossy rest
        have hn : (0xF0 + c.toNat / 262144 - 0xF0) * 262144 +
            (0x80 + c.toNat / 4096 % 64 - 0x80) * 4096 +
            (0x80 + c.toNat / 64 % 64 - 0x80) * 64 + (0x80 + c.toNat % 64 - 0x80) =
            c.toNat := by omega
        rw [hn, Char.ofNat_toNat]

/-- Lossy decoding is the identity on valid UTF-8 input: decoding the
UTF-8 encoding of any string gives back exactly that string. -/
theorem utf8DecodeLossy_encode (s : List Char) :
    utf8DecodeLossy (utf8Encode s) = s := by
  induction s with
  | nil => rfl
  | cons c cs ih => rw [utf8Encode, utf8DecodeLossy_encodeChar, ih]

/-- `Char.ofNat` and `Char.toNat` cancel on small code points (digits,
signs and the like). -/
theorem charOfNat_toNat_small {n : Nat} (h : n < 55296) : (Char.ofNat n).toNat = n := by
  rw [Char.ofNat, dif_pos (Or.inl h)]
  rfl

/-- The digit accumulator produces, in front of the accumulator, a
nonempty canonical digit string of its argument, provided the fuel
exceeds the argument. -/
theorem natDecRec_spec :
    ∀ fuel n acc, n < fuel →
      ∃ ds, natDecRec fuel n acc = ds ++ acc ∧ ds ≠ [] ∧
        (∀ c ∈ ds, 48 ≤ c.toNat ∧ c.toNat ≤ 57) ∧ decDigitsVal ds = n ∧
        (ds.head? = some '0' → ds = ['0']) := by
  intro fuel
  induction fuel with
  | zero => intro n acc h; omega
  | succ f ih =>
    intro n acc h
    by_cases hn : n < 10
    · refine ⟨[Char.ofNat (48 + n)], ?_, by simp, ?_, ?_, ?_⟩
      · show (if n < 10 then Char.ofNat (48 + n) :: acc else
            natDecRec f (n / 10) (Char.ofNat (48 + n % 10) :: acc)) = _
        rw [if_pos hn]
        rfl
      · intro c hc
        simp at hc
        rw [hc, charOfNat_toNat_small (by omega)]
        omega
      · show decDigitsVal [Char.ofNat (48 + n)] = n
        show 10 * 0 + ((Char.ofNat (48 + n)).toNat - 48) = n
        rw [charOfNat_toNat_small (by omega)]
        omega
      · intro hh
        simp at hh
        have h0 : (Char.ofNat (48 + n)).toNat = (48 : Nat) := by
          rw [hh]
          rfl
        rw [charOfNat_toNat_small (by omega)] at h0
        have hn0 : n = 0 := by omega
        rw [hn0]
    · obtain ⟨ds, hds, hne, hdig, hval, hhead⟩ :=
        ih (n / 10) (Char.ofNat (48 + n % 10) :: acc) (by omega)
      refine ⟨ds ++ [Char.ofNat (48 + n % 10)], ?_, by simp, ?_, ?_, ?_⟩
      · show (if n < 10 then Char.ofNat (48 + n) :: acc else
            natDecRec f (n / 10) (Char.ofNat (48 + n % 10) :: acc)) = _
        rw [if_neg hn, hds, List.append_assoc]
        rfl
      · intro c hc
        rw [List.mem_append] at hc
        rcases hc with hc | hc
        · exact hdig c hc
        · simp at hc
          rw [hc, charOfNat_toNat_small (by omega)]
          omega
      · show decDigitsVal (ds ++ [Char.ofNat (48 + n % 10)]) = n
        rw [decDigitsVal, List.foldl_append]
        show 10 * decDigitsVal ds + ((Char.ofNat (48 + n % 10)).toNat - 48) = n
        rw [hval, charOfNat_toNat_small (by omega)]
        omega
      · intro hh
        rcases ds with _ | ⟨d, ds'⟩
        · exact absurd rfl hne
        · simp at hh
          have : (d :: ds') = ['0'] := hhead (by simp [hh])
          have hzero : decDigitsVal (d :: ds') = 0 := by rw [this]; rfl
          rw [hval] at hzero
          omega

/-- `natDecimal` produces the canonical base-10 representation. -/
theorem natDecimal_repr (n : Nat) : NatDecRepr (natDecimal n) n := by
  obtain ⟨ds, hds, hne, hdig, hval, hhead⟩ := natDecRec_spec (n + 1) n [] (by omega)
  have : natDecimal n = ds := by rw [natDecimal, hds, List.append_nil]
  rw [this]
  exact ⟨hne, hdig, hval, hhead⟩

/-- `intDecimal` produces the canonical base-10 representation of an
integer, sign included. -/
theorem intDecimal_repr (v : Int) : DecimalRepr (intDecimal v) v := by
  by_cases hv : v < 0
  · right
    exact ⟨hv, natDecimal v.natAbs, by rw [intDecimal, if_pos hv], natDecimal_repr _⟩
  · left
    refine ⟨by omega, ?_⟩
    rw [intDecimal, if_neg hv]
    exact natDecimal_repr _

/-- Every method call produces exactly escape prefix + text + reset:
the common normal form of all eighteen implementation/operation
pairs. -/
theorem dispatch_eq (op : Operation) (inp : Input) :
    dispatch op inp = escapeOf op.codeOf ++ inp.textOf ++ resetSeq := by
  cases op with
  | style st => cases inp <;> cases st <;> rfl
  | rgb r g b =>
    cases inp <;>
      simp [dispatch, Operation.codeOf, Input.textOf, escapeOf, rgbCode, resetSeq,
        PrimImpl.rgb, StrImpl.rgb, StringImpl.rgb, ByteSliceImpl.rgb, ByteVecImpl.rgb,
        ByteArrImpl.rgb, List.append_assoc]
  | color c =>
    cases inp <;>
      simp [dispatch, Operation.codeOf, Input.textOf, escapeOf, paletteCode, resetSeq,
        PrimImpl.color, StrImpl.color, StringImpl.color, ByteSliceImpl.color,
        ByteVecImpl.color, ByteArrImpl.color, List.append_assoc]

/-- Claim C1: for every text input (string slice or owned string) and
every parameterless style, the output is the escape prefix
`ESC[<code>m` with the fixed code of the style (red=31, green=32,
yellow=33, magenta=35, cyan=36, blue=34, bold=1, underline=4,
blink=5), then the text verbatim, then `ESC[0m`. -/
theorem claim_C1_text_styles (s : List Char) (st : Style) :
    StrImpl.apply st s = escapeOf st.code ++ s ++ resetSeq ∧
    StringImpl.apply st s = escapeOf st.code ++ s ++ resetSeq := by
  cases st <;> exact ⟨rfl, rfl⟩

/-- Claim C2: for every byte-sequence input (byte slice or owned byte
vector), including empty input and arbitrary invalid UTF-8, every
operation produces the escape prefix, then the lossy UTF-8 decoding of
the bytes (invalid subsequences replaced by U+FFFD, never failing),
then the reset sequence. -/
theorem claim_C2_bytes_lossy (b : List Nat) (st : Style) (r g bl code : Nat) :
    ByteSliceImpl.apply st b = escapeOf st.code ++ utf8DecodeLossy b ++ resetSeq ∧
    ByteVecImpl.apply st b = escapeOf st.code ++ utf8DecodeLossy b ++ resetSeq ∧
    ByteSliceImpl.rgb b r g bl = escapeOf (rgbCode r g bl) ++ utf8DecodeLossy b ++ resetSeq ∧
    ByteVecImpl.rgb b r g bl = escapeOf (rgbCode r g bl) ++ utf8DecodeLossy b ++ resetSeq ∧
    ByteSliceImpl.color b code = escapeOf (paletteCode code) ++ utf8DecodeLossy b ++ resetSeq ∧
    ByteVecImpl.color b code = escapeOf (paletteCode code) ++ utf8DecodeLossy b ++ resetSeq := by
  refine ⟨by cases st <;> rfl, by cases st <;> rfl, ?_, ?_, ?_, ?_⟩ <;>
    simp [ByteSliceImpl.rgb, ByteVecImpl.rgb, ByteSliceImpl.color, ByteVecImpl.color,
      escapeOf, rgbCode, paletteCode, resetSeq, List.append_assoc]

/-- Claim C3: for every value of each supported numeric type (in its
range) and every parameterless style, the output is the escape prefix,
then the canonical base-10 decimal representation of the value, then
the reset sequence; `intDecimal` is canonical (digit characters only,
no leading zeros, correct value, minus sign exactly for negatives). -/
theorem claim_C3_numeric (ty : NumTy) (v : Int) (h : ty.inRange v = true) (st : Style) :
    PrimImpl.apply st v = escapeOf st.code ++ intDecimal v ++ resetSeq ∧
    DecimalRepr (intDecimal v) v :=
  ⟨by cases st <;> rfl, intDecimal_repr v⟩

/-- Witness for C3 at `42u32` with `green` (spec scenario 1). -/
theorem claim_C3_numeric_witness :
    NumTy.inRange .u32 42 = true ∧
      (PrimImpl.apply .green 42 = escapeOf Style.green.code ++ intDecimal 42 ++ resetSeq ∧
        DecimalRepr (intDecimal 42) 42) :=
  ⟨by decide, claim_C3_numeric .u32 42 (by decide) .green⟩

/-- Claim C4: for every supported input and every triple of 8-bit
components, `rgb` produces `ESC[38;2;r;g;bm` (components in decimal,
in that order), then the input's text, then `ESC[0m`. -/
theorem claim_C4_rgb (r g bl : Nat) (hr : r < 256) (hg : g < 256) (hb : bl < 256)
    (v : Int) (s : List Char) (b : List Nat) :
    PrimImpl.rgb v r g bl = escapeOf (rgbCode r g bl) ++ intDecimal v ++ resetSeq ∧
    StrImpl.rgb s r g bl = escapeOf (rgbCode r g bl) ++ s ++ resetSeq ∧
    StringImpl.rgb s r g bl = escapeOf (rgbCode r g bl) ++ s ++ resetSeq ∧
    ByteSliceImpl.rgb b r g bl = escapeOf (rgbCode r g bl) ++ utf8DecodeLossy b ++ resetSeq ∧
    ByteVecImpl.rgb b r g bl = escapeOf (rgbCode r g bl) ++ utf8DecodeLossy b ++ resetSeq ∧
    ByteArrImpl.rgb b r g bl = escapeOf (rgbCode r g bl) ++ utf8DecodeLossy b ++ resetSeq := by
  refine ⟨?_, ?_, ?_, ?_, ?_, ?_⟩ <;>
    simp [PrimImpl.rgb, StrImpl.rgb, StringImpl.rgb, ByteSliceImpl.rgb, ByteVecImpl.rgb,
      ByteArrImpl.rgb, escapeOf, rgbCode, resetSeq, List.append_assoc]

/-- Witness for C4 at the spec's scenario 4 parameters (70,130,180). -/
theorem claim_C4_rgb_witness :
    (70 : Nat) < 256 ∧ (130 : Nat) < 256 ∧ (180 : Nat) < 256 ∧
      (PrimImpl.rgb 5 70 130 180 = escapeOf (rgbCode 70 130 180) ++ intDecimal 5 ++ resetSeq ∧
        StrImpl.rgb ['T', 'e', 'x', 't'] 70 130 180 =
          escapeOf (rgbCode 70 130 180) ++ ['T', 'e', 'x', 't'] ++ resetSeq ∧
        StringImpl.rgb ['T', 'e', 'x', 't'] 70 130 180 =
          escapeOf (rgbCode 70 130 180) ++ ['T', 'e', 'x', 't'] ++ resetSeq ∧
        ByteSliceImpl.rgb [72] 70 130 180 =
          escapeOf (rgbCode 70 130 180) ++ utf8DecodeLossy [72] ++ resetSeq ∧
        ByteVecImpl.rgb [72] 70 130 180 =
          escapeOf (rgbCode 70 130 180) ++ utf8DecodeLossy [72] ++ resetSeq ∧
        ByteArrImpl.rgb [72] 70 130 180 =
          escapeOf (rgbCode 70 130 180) ++ utf8DecodeLossy [72] ++ resetSeq) :=
  ⟨by decide, by decide, by decide,
    claim_C4_rgb 70 130 180 (by decide) (by decide) (by decide) 5 ['T', 'e', 'x', 't'] [72]⟩

/-- Claim C5: for every supported input and every 8-bit palette code,
`color` produces `ESC[38;5;codem` (code in decimal), then the input's
text, then `ESC[0m`. -/
theorem claim_C5_palette (code : Nat) (hc : code < 256) (v : Int) (s : List Char)
    (b : List Nat) :
    PrimImpl.color v code = escapeOf (paletteCode code) ++ intDecimal v ++ resetSeq ∧
    StrImpl.color s code = escapeOf (paletteCode code) ++ s ++ resetSeq ∧
    StringImpl.color s code = escapeOf (paletteCode code) ++ s ++ resetSeq ∧
    ByteSliceImpl.color b code = escapeOf (paletteCode code) ++ utf8DecodeLossy b ++ resetSeq ∧
    ByteVecImpl.color b code = escapeOf (paletteCode code) ++ utf8DecodeLossy b ++ resetSeq ∧
    ByteArrImpl.color b code = escapeOf (paletteCode code) ++ utf8DecodeLossy b ++ resetSeq := by
  refine ⟨?_, ?_, ?_, ?_, ?_, ?_⟩ <;>
    simp [PrimImpl.color, StrImpl.color, StringImpl.color, ByteSliceImpl.color,
      ByteVecImpl.color, ByteArrImpl.color, escapeOf, paletteCode, resetSeq,
      List.append_assoc]

/-- Witness for C5 at the spec's scenario 5 code 202. -/
theorem claim_C5_palette_witness :
    (202 : Nat) < 256 ∧
      (PrimImpl.color 5 202 = escapeOf (paletteCode 202) ++ intDecimal 5 ++ resetSeq ∧
        StrImpl.color ['T', 'e', 'x', 't'] 202 =
          escapeOf (paletteCode 202) ++ ['T', 'e', 'x', 't'] ++ resetSeq ∧
        StringImpl.color ['T', 'e', 'x', 't'] 202 =
          escapeOf (paletteCode 202) ++ ['T', 'e', 'x', 't'] ++ resetSeq ∧
        ByteSliceImpl.color [72] 202 =
          escapeOf (paletteCode 202) ++ utf8DecodeLossy [72] ++ resetSeq ∧
        ByteVecImpl.color [72] 202 =
          escapeOf (paletteCode 202) ++ utf8DecodeLossy [72] ++ resetSeq ∧
        ByteArrImpl.color [72] 202 =
          escapeOf (paletteCode 202) ++ utf8DecodeLossy [72] ++ resetSeq) :=
  ⟨by decide, claim_C5_palette 202 (by decide) 5 ['T', 'e', 'x', 't'] [72]⟩

/-- Claim C6: every operation on every supported input produces a
string that begins with `ESC[` + the operation's code + `m`, ends with
`ESC[0m`, and carries the input's textual representation (verbatim for
text, decimal for numerics, lossily decoded for bytes) in between. -/
theorem claim_C6_invariant (op : Operation) (inp : Input) :
    dispatch op inp = escapeOf op.codeOf ++ inp.textOf ++ resetSeq :=
  dispatch_eq op inp

/-- Claim C7: every operation is total on its input type — for every
operation and every input value (empty, zero, maximal or arbitrary
binary content included) a string of the definite shape is returned;
no failure branch exists. -/
theorem claim_C7_total (op : Operation) (inp : Input) :
    (dispatch op inp).length = (escapeOf op.codeOf).length + (inp.textOf).length + 4 := by
  rw [dispatch_eq]
  simp [resetSeq, escapeOf]
  omega

/-- Claim C8: every operation is pure — equal inputs and parameters
give equal output strings, and the caller's input value is unchanged
by the call (the method takes the receiver by shared reference). -/
theorem claim_C8_pure (op : Operation) (i1 i2 : Input) (h : i1 = i2) :
    dispatch op i1 = dispatch op i2 ∧ (dispatchCall op i1).2 = i1 := by
  subst h
  exact ⟨rfl, rfl⟩

/-- Witness for C8 at a concrete repeated call. -/
theorem claim_C8_pure_witness :
    Input.strSlice ['H', 'i'] = Input.strSlice ['H', 'i'] ∧
      (dispatch (.style .red) (.strSlice ['H', 'i']) =
          dispatch (.style .red) (.strSlice ['H', 'i']) ∧
        (dispatchCall (.style .red) (.strSlice ['H', 'i'])).2 =
          Input.strSlice ['H', 'i']) :=
  ⟨rfl, claim_C8_pure (.style .red) (.strSlice ['H', 'i']) (.strSlice ['H', 'i']) rfl⟩

/-- Claim C9: the byte-slice, owned-byte-vector and
fixed-size-byte-array-reference implementations agree on every byte
content and every operation. -/
theorem claim_C9_byte_impls_agree (b : List Nat) (st : Style) (r g bl code : Nat) :
    ByteVecImpl.apply st b = ByteSliceImpl.apply st b ∧
    ByteArrImpl.apply st b = ByteSliceImpl.apply st b ∧
    ByteVecImpl.rgb b r g bl = ByteSliceImpl.rgb b r g bl ∧
    ByteArrImpl.rgb b r g bl = ByteSliceImpl.rgb b r g bl ∧
    ByteVecImpl.color b code = ByteSliceImpl.color b code ∧
    ByteArrImpl.color b code = ByteSliceImpl.color b code := by
  refine ⟨by cases st <;> rfl, rfl, rfl, rfl, rfl, rfl⟩

/-- Claim C10: on a byte sequence that is the valid UTF-8 encoding of
a string, every byte-slice operation agrees with the corresponding
string-slice operation; lossy decoding is the identity on valid UTF-8
input. -/
theorem claim_C10_valid_utf8 (s : List Char) (st : Style) (r g bl code : Nat) :
    utf8DecodeLossy (utf8Encode s) = s ∧
    ByteSliceImpl.apply st (utf8Encode s) = StrImpl.apply st s ∧
    ByteSliceImpl.rgb (utf8Encode s) r g bl = StrImpl.rgb s r g bl ∧
    ByteSliceImpl.color (utf8Encode s) code = StrImpl.color s code := by
  refine ⟨utf8DecodeLossy_encode s, ?_, ?_, ?_⟩
  · cases st <;> simp [StrImpl.apply, ByteSliceImpl.apply, utf8DecodeLossy_encode]
  · simp [StrImpl.rgb, ByteSliceImpl.rgb, utf8DecodeLossy_encode]
  · simp [StrImpl.color, ByteSliceImpl.color, utf8DecodeLossy_encode]

/-- Spec scenario 1: `42u32` under `green`. -/
theorem scenario_green_42 : PrimImpl.apply .green 42 = "\x1b[32m42\x1b[0m".data := by
  decide

/-- Spec scenario 2: `"Success!"` under `red`. -/
theorem scenario_red_success :
    StrImpl.apply .red "Success!".data = "\x1b[31mSuccess!\x1b[0m".data := by
  decide

/-- Spec scenario 3: bytes `[0xFF, 0x48, 0x49]` under `cyan`: the
invalid leading byte renders as U+FFFD. -/
theorem scenario_cyan_bytes :
    ByteSliceImpl.apply .cyan [0xFF, 0x48, 0x49] = "\x1b[36m�HI\x1b[0m".data := by
  decide

/-- Spec scenario 4: `"Text"` under `rgb` with (70,130,180). -/
theorem scenario_rgb_text :
    StrImpl.rgb "Text".data 70 130 180 = "\x1b[38;2;70;130;180mText\x1b[0m".data := by
  decide

/-- Spec scenario 5: `"Text"` under `color` with 202. -/
theorem scenario_color_text :
    StrImpl.color "Text".data 202 = "\x1b[38;5;202mText\x1b[0m".data := by
  decide

/-- Spec scenario 6: the empty string under `bold`. -/
theorem scenario_bold_empty : StrImpl.apply .bold [] = "\x1b[1m\x1b[0m".data := by
  decide
